import Mathlib

/-!
Verification of the Task Tracker repository against its specification.

The repository has two parallel implementations of the same contract:
`src/B/Task Tracker CLI/FastAPI/main.py` and
`src/B/Task Tracker CLI/Django/tasktracker/tasks/views.py`.
Both keep the whole task list in a single JSON file (`tasks.json`) and
perform a full load-mutate-save cycle per request.

This file gives a shallow embedding of both implementations:
- the `Task` record and the JSON file format `json.dump(tasks, f, indent=2)`
  writes (including Python's default `ensure_ascii` escaping), together with
  a parser modelling `json.load` on such files;
- every endpoint of both implementations, as a pure function from the file
  state (`Option String`: `none` is a missing `tasks.json`) and the request
  inputs to an `Except Err` result; `datetime.now().isoformat()` is modelled
  by an explicit `now : String` argument.
-/

namespace TaskTracker

/-- A task record, mirroring the JSON objects both implementations build:
keys `id`, `description`, `status`, `createdAt`, `updatedAt`, in this
insertion order. The `status` field is kept as a raw string, as in the
stored dictionaries; the enumeration is enforced by the operations. -/
structure Task where
  id : Int
  description : String
  status : String
  createdAt : String
  updatedAt : String
deriving Repr, DecidableEq, Inhabited

/-- Error outcomes, abstracted from the HTTP layer: 400-class responses
(pydantic validation failures and Django 400 responses) are `validation`,
404 responses are `notFound`. Response messages are not modelled. -/
inductive Err where
  | validation
  | notFound
deriving Repr, DecidableEq

/-- Whitespace characters removed by Python `str.strip()` (the ASCII ones;
the repository never manipulates non-ASCII whitespace). -/
def isPySpace (c : Char) : Bool :=
  c == ' ' || c == '\t' || c == '\n' || c == '\r' || c == '\x0b' || c == '\x0c'

/-- Python `str.strip()`: drop leading and trailing whitespace. -/
def pyStrip (s : String) : String :=
  String.mk (((s.data.dropWhile isPySpace).reverse.dropWhile isPySpace).reverse)

/-- The status values accepted by both implementations
(`['todo', 'in-progress', 'done']`). -/
def validStatuses : List String := ["todo", "in-progress", "done"]

/-! ### Serialization: the exact file content `json.dump(tasks, f, indent=2)`
writes for a list of task dictionaries. -/

/-- Lowercase hexadecimal digit, as Python's `\uXXXX` escapes use. -/
def hexDigitChar (n : Nat) : Char :=
  if n < 10 then Char.ofNat (48 + n) else Char.ofNat (87 + n)

/-- Four lowercase hex digits of a value below 0x10000. -/
def hex4 (n : Nat) : List Char :=
  [hexDigitChar (n / 4096 % 16), hexDigitChar (n / 256 % 16),
   hexDigitChar (n / 16 % 16), hexDigitChar (n % 16)]

/-- JSON escaping of one character with Python's defaults (`ensure_ascii`):
quote and backslash escaped, short escapes for the common control
characters, every other character outside printable ASCII as `\uXXXX`,
and astral characters as a UTF-16 surrogate pair. -/
def escapeChar (c : Char) : List Char :=
  if c = '"' then ['\\', '"']
  else if c = '\\' then ['\\', '\\']
  else if c = '\x08' then ['\\', 'b']
  else if c = '\x0c' then ['\\', 'f']
  else if c = '\n' then ['\\', 'n']
  else if c = '\r' then ['\\', 'r']
  else if c = '\t' then ['\\', 't']
  else if 32 ≤ c.toNat && c.toNat ≤ 126 then [c]
  else if c.toNat < 65536 then '\\' :: 'u' :: hex4 c.toNat
  else
    let v := c.toNat - 65536
    ('\\' :: 'u' :: hex4 (55296 + v / 1024)) ++ ('\\' :: 'u' :: hex4 (56320 + v % 1024))

/-- A JSON string literal: quote, escaped characters, quote. -/
def strLit (s : String) : List Char :=
  '"' :: (s.data.flatMap escapeChar ++ ['"'])

/-- Decimal digits of `n`, least significant first. The fuel argument makes
the recursion structural, so concrete terms reduce inside the kernel. -/
def natDigitsLE (fuel : Nat) (n : Nat) : List Char :=
  match fuel with
  | 0 => []
  | fuel + 1 =>
    if n < 10 then [Char.ofNat (48 + n)]
    else Char.ofNat (48 + n % 10) :: natDigitsLE fuel (n / 10)

/-- Decimal rendering of a natural number, most significant digit first. -/
def natChars (n : Nat) : List Char := (natDigitsLE (n + 1) n).reverse

/-- Python rendering of an int: optional minus sign, then decimal digits. -/
def intChars (i : Int) : List Char :=
  if i < 0 then '-' :: natChars i.natAbs else natChars i.toNat

/-- The separator `",\n    "` between the keys of a serialized task
(`json.dump` with `indent=2`, objects at array depth). -/
def fieldSep : List Char := [',', '\n', ' ', ' ', ' ', ' ']

/-- One `"key": value` pair (the default key separator is `": "`). -/
def keyVal (k : String) (v : List Char) : List Char :=
  strLit k ++ ':' :: ' ' :: v

/-- One serialized task object, exactly as `json.dump(tasks, f, indent=2)`
renders an element of the top-level array. -/
def dumpTask (t : Task) : List Char :=
  '{' :: '\n' :: ' ' :: ' ' :: ' ' :: ' ' ::
    (keyVal "id" (intChars t.id) ++ fieldSep ++
     keyVal "description" (strLit t.description) ++ fieldSep ++
     keyVal "status" (strLit t.status) ++ fieldSep ++
     keyVal "createdAt" (strLit t.createdAt) ++ fieldSep ++
     keyVal "updatedAt" (strLit t.updatedAt) ++
     ['\n', ' ', ' ', '}'])

/-- The array items joined by the item separator `",\n  "`. -/
def dumpItems : List Task → List Char
  | [] => []
  | [t] => dumpTask t
  | t :: u :: ts => dumpTask t ++ ',' :: '\n' :: ' ' :: ' ' :: dumpItems (u :: ts)

/-- The whole file content `json.dump(tasks, f, indent=2)` writes: `[]` for
the empty list, otherwise the bracketed, indented item list. -/
def dumpsChars : List Task → List Char
  | [] => ['[', ']']
  | t :: ts => '[' :: '\n' :: ' ' :: ' ' :: (dumpItems (t :: ts) ++ ['\n', ']'])

/-- Serialization of a task list to the stored string. -/
def dumps (ts : List Task) : String := String.mk (dumpsChars ts)

/-! ### Parsing: a model of `json.load` on tasks files. It accepts a JSON
array of task objects in the canonical shape both implementations write
(the five keys in insertion order), with arbitrary whitespace, and rejects
everything else. Content that is not valid JSON at all — the case the
`except json.JSONDecodeError` branch catches — is always rejected. -/

/-- JSON whitespace. -/
def isJsonWs (c : Char) : Bool := c == ' ' || c == '\n' || c == '\t' || c == '\r'

/-- Drop leading JSON whitespace. -/
def skipWs : List Char → List Char
  | c :: cs => if isJsonWs c then skipWs cs else c :: cs
  | [] => []

/-- Value of one hexadecimal digit character, if it is one. -/
def hexVal (c : Char) : Option Nat :=
  if 48 ≤ c.toNat && c.toNat ≤ 57 then some (c.toNat - 48)
  else if 97 ≤ c.toNat && c.toNat ≤ 102 then some (c.toNat - 87)
  else if 65 ≤ c.toNat && c.toNat ≤ 70 then some (c.toNat - 55)
  else none

/-- Combine four hexadecimal digits into a value below 0x10000. -/
def hex4Val (a b c d : Char) : Option Nat := do
  let va ← hexVal a
  let vb ← hexVal b
  let vc ← hexVal c
  let vd ← hexVal d
  some (((va * 16 + vb) * 16 + vc) * 16 + vd)

/-- A unicode scalar value as a `Char`, rejecting surrogates and
out-of-range values. -/
def mkChar (n : Nat) : Option Char :=
  if h : Nat.isValidChar n then some (Char.ofNatAux n h) else none

/-- Decode the low half of a surrogate pair: a second `\uXXXX` whose value
is a low surrogate, combined with the high surrogate `n` already read. -/
def parseLowSurrogate (n : Nat) : List Char → Option (Char × List Char)
  | e1 :: e2 :: a :: b :: c :: d :: r =>
    if e1 = '\\' && e2 = 'u' then
      (hex4Val a b c d).bind (fun m =>
        if 56320 ≤ m && m < 57344 then
          (mkChar (65536 + (n - 55296) * 1024 + (m - 56320))).map (fun ch => (ch, r))
        else none)
    else none
  | _ => none

/-- Decode the four hex digits of a `\uXXXX` escape: a high surrogate must
be followed by a low one; anything else must be a valid scalar value. -/
def parseU : List Char → Option (Char × List Char)
  | a :: b :: c :: d :: r =>
    (hex4Val a b c d).bind (fun n =>
      if 55296 ≤ n && n < 56320 then parseLowSurrogate n r
      else (mkChar n).map (fun ch => (ch, r)))
  | _ => none

/-- Decode what follows a backslash in a JSON string: a short escape, a
basic-plane `\uXXXX`, or a surrogate pair; yields the decoded character
and the remaining input. -/
def parseEscapeChar : List Char → Option (Char × List Char)
  | [] => none
  | e :: r =>
    if e = '"' then some ('"', r)
    else if e = '\\' then some ('\\', r)
    else if e = '/' then some ('/', r)
    else if e = 'b' then some ('\x08', r)
    else if e = 'f' then some ('\x0c', r)
    else if e = 'n' then some ('\n', r)
    else if e = 'r' then some ('\r', r)
    else if e = 't' then some ('\t', r)
    else if e = 'u' then parseU r
    else none

/-- Parse the body of a JSON string literal up to its closing quote,
undoing `escapeChar`. Fuel (one unit per decoded character) keeps the
recursion structural. -/
def parseStringBodyF : Nat → List Char → Option (List Char × List Char)
  | 0, _ => none
  | _, [] => none
  | fuel + 1, c :: rest =>
    if c = '"' then some ([], rest)
    else if c = '\\' then
      match parseEscapeChar rest with
      | some q => (parseStringBodyF fuel q.2).map (fun p => (q.1 :: p.1, p.2))
      | none => none
    else if 32 ≤ c.toNat then
      (parseStringBodyF fuel rest).map (fun p => (c :: p.1, p.2))
    else none

/-- Parse a JSON string body; the input length bounds the decoded length,
so it serves as fuel. -/
def parseStringBody (l : List Char) : Option (List Char × List Char) :=
  parseStringBodyF (l.length + 1) l

/-- Parse a JSON string literal including its quotes. -/
def parseJString : List Char → Option (String × List Char)
  | '"' :: rest => (parseStringBody rest).map (fun p => (String.mk p.1, p.2))
  | _ => none

/-- Decimal digit character test. -/
def isDigitChar (c : Char) : Bool := 48 ≤ c.toNat && c.toNat ≤ 57

/-- Consume a maximal run of decimal digits, accumulating their value. -/
def parseNatAux : List Char → Nat → Nat × List Char
  | c :: rest, acc =>
    if isDigitChar c then parseNatAux rest (acc * 10 + (c.toNat - 48))
    else (acc, c :: rest)
  | [], acc => (acc, [])

/-- Test for an input that cannot extend a digit run: empty, or headed by
a non-digit. -/
def nonDigitStart : List Char → Bool
  | [] => true
  | c :: _ => !(isDigitChar c)

/-- Parse a nonempty run of decimal digits as a natural number. -/
def parseNat (l : List Char) : Option (Nat × List Char) :=
  match l with
  | c :: _ => if isDigitChar c then some (parseNatAux l 0) else none
  | [] => none

/-- Parse a JSON integer: an optional minus sign, then digits. -/
def parseInt (l : List Char) : Option (Int × List Char) :=
  match l with
  | c :: rest =>
    if c = '-' then (parseNat rest).map (fun p => (-(p.1 : Int), p.2))
    else (parseNat (c :: rest)).map (fun p => ((p.1 : Int), p.2))
  | [] => none

/-- Skip whitespace, then require the given character. -/
def expectTok (c : Char) (l : List Char) : Option (List Char) :=
  match skipWs l with
  | d :: rest => if d = c then some rest else none
  | [] => none

/-- Skip whitespace, then require the fixed object key `k` in quotes,
followed by a colon. -/
def expectKey (k : String) (l : List Char) : Option (List Char) := do
  let l1 ← expectTok '"' l
  let p ← parseStringBody l1
  if String.mk p.1 = k then expectTok ':' p.2 else none

/-- Parse an `"k": <int>` field after the object key `k`. -/
def parseIntField (k : String) (l : List Char) : Option (Int × List Char) := do
  let l ← expectKey k l
  parseInt (skipWs l)

/-- Parse a `"k": <string>` field after the object key `k`. -/
def parseStrField (k : String) (l : List Char) : Option (String × List Char) := do
  let l ← expectKey k l
  parseJString (skipWs l)

/-- Parse a comma and then a string-valued field. -/
def parseStrFieldComma (k : String) (l : List Char) : Option (String × List Char) := do
  let l ← expectTok ',' l
  parseStrField k l

/-- Parse one task object: the five fixed keys in the order both
implementations create and serialize them. -/
def parseTask (l : List Char) : Option (Task × List Char) := do
  let l ← expectTok '{' l
  let (i, l) ← parseIntField "id" l
  let (d, l) ← parseStrFieldComma "description" l
  let (s, l) ← parseStrFieldComma "status" l
  let (ca, l) ← parseStrFieldComma "createdAt" l
  let (ua, l) ← parseStrFieldComma "updatedAt" l
  let l ← expectTok '}' l
  some (⟨i, d, s, ca, ua⟩, l)

/-- Parse one-or-more comma-separated task objects up to the closing
bracket. The fuel (one unit per task) keeps the recursion structural. -/
def parseItems (fuel : Nat) (l : List Char) : Option (List Task × List Char) :=
  match fuel with
  | 0 => none
  | fuel + 1 => do
    let p ← parseTask l
    match skipWs p.2 with
    | ',' :: l2 => (parseItems fuel (skipWs l2)).map (fun q => (p.1 :: q.1, q.2))
    | ']' :: l2 => some ([p.1], l2)
    | _ => none

/-- Parse what follows the opening bracket of the array: either an
immediate closing bracket (the empty store `[]`), or the item list; any
trailing content after the array makes the document invalid. -/
def parseTasksTail (fuel : Nat) : List Char → Option (List Task)
  | [] => none
  | d :: l2 =>
    if d = ']' then (if skipWs l2 = [] then some [] else none)
    else
      match parseItems fuel (d :: l2) with
      | some p => if skipWs p.2 = [] then some p.1 else none
      | none => none

/-- Parse a whole tasks file: a JSON array of task objects and nothing
else. Inputs `json.load` rejects yield `none`; so do JSON documents that
are not arrays of task objects in the canonical shape both
implementations write. -/
def parseTasks (s : String) : Option (List Task) :=
  match skipWs s.data with
  | [] => none
  | c :: l =>
    if c = '[' then parseTasksTail (l.length + 1) (skipWs l) else none

/-! ### The FastAPI implementation (`FastAPI/main.py`). Endpoints take the
file state (`none`: `tasks.json` absent) and return the handler result; a
successful mutating endpoint also returns the newly written file content. -/

namespace FastAPI

/-- The `load_tasks` helper: a missing file gives `[]`; content that
`json.load` raises `JSONDecodeError` on gives `[]`; parsed content is
returned as-is. -/
def load_tasks (file : Option String) : List Task :=
  match file with
  | none => []
  | some content =>
    match parseTasks content with
    | some ts => ts
    | none => []

/-- The `save_tasks` helper: `json.dump(tasks, f, indent=2)`; the result is
the new file content. -/
def save_tasks (tasks : List Task) : String := dumps tasks

/-- The `get_next_id` helper: `1` when the list is empty, otherwise
`max(task['id'] for task in tasks) + 1`. -/
def get_next_id (tasks : List Task) : Int :=
  match tasks with
  | [] => 1
  | t :: ts => ts.foldl (fun acc u => max acc u.id) t.id + 1

/-- Index scan behind `find_task_index` (`enumerate` with a running
index). -/
def find_task_index_from (task_id : Int) : List Task → Int → Int
  | [], _ => -1
  | t :: ts, idx =>
    if t.id = task_id then idx else find_task_index_from task_id ts (idx + 1)

/-- The `find_task_index` helper: index of the first task with the given
id, or the sentinel `-1`. -/
def find_task_index (tasks : List Task) (task_id : Int) : Int :=
  find_task_index_from task_id tasks 0

/-- Pydantic `TaskCreate`: a `description` with `min_length=1` and
`max_length=500`. Pydantic checks the raw length — no trimming — so
whitespace-only strings of length at least 1 pass. -/
def TaskCreate_valid (description : String) : Bool :=
  1 ≤ description.length && description.length ≤ 500

/-- Pydantic `TaskUpdate`: the same constraints as `TaskCreate`. -/
def TaskUpdate_valid (description : String) : Bool :=
  1 ≤ description.length && description.length ≤ 500

/-- Pydantic `TaskStatus`: the `Literal` of the three status values. -/
def TaskStatus_valid (status : String) : Bool := validStatuses.contains status

/-- POST `/tasks` (`create_task`): after the pydantic body validation,
load, build the new task (status `todo`, both timestamps `now`, the raw
untrimmed description), append, save, return the new task. -/
def create_task (file : Option String) (description now : String) :
    Except Err (Task × String) :=
  if TaskCreate_valid description then
    let tasks := load_tasks file
    let new_task : Task :=
      { id := get_next_id tasks, description := description, status := "todo",
        createdAt := now, updatedAt := now }
    Except.ok (new_task, save_tasks (tasks ++ [new_task]))
  else Except.error Err.validation

/-- GET `/tasks` (`list_tasks`): the full loaded list. -/
def list_tasks (file : Option String) : List Task := load_tasks file

/-- GET `/tasks/status/...` (`list_tasks_by_status`): the `Literal` path
parameter is validated by the framework before the handler filters. -/
def list_tasks_by_status (file : Option String) (task_status : String) :
    Except Err (List Task) :=
  if TaskStatus_valid task_status then
    Except.ok ((load_tasks file).filter (fun t => t.status == task_status))
  else Except.error Err.validation

/-- GET `/tasks/...` (`get_task`): 404 when `find_task_index` returns the
sentinel, otherwise the task at the found index. -/
def get_task (file : Option String) (task_id : Int) : Except Err Task :=
  let tasks := load_tasks file
  let idx := find_task_index tasks task_id
  if idx = -1 then Except.error Err.notFound
  else Except.ok (tasks.getD idx.toNat default)

/-- PUT `/tasks/...` (`update_task`): pydantic validation, then 404 on the
sentinel; otherwise the description (untrimmed) and `updatedAt` are
assigned in place, the list is saved, and the updated task returned. -/
def update_task (file : Option String) (task_id : Int) (description now : String) :
    Except Err (Task × String) :=
  if TaskUpdate_valid description then
    let tasks := load_tasks file
    let idx := find_task_index tasks task_id
    if idx = -1 then Except.error Err.notFound
    else
      let t := tasks.getD idx.toNat default
      let t1 := { t with description := description, updatedAt := now }
      Except.ok (t1, save_tasks (tasks.set idx.toNat t1))
  else Except.error Err.validation

/-- PATCH `/tasks/.../status` (`update_task_status`): pydantic validation
of the `status` literal, then 404 on the sentinel; otherwise status and
`updatedAt` are assigned in place, the list saved, the task returned. -/
def update_task_status (file : Option String) (task_id : Int) (status now : String) :
    Except Err (Task × String) :=
  if TaskStatus_valid status then
    let tasks := load_tasks file
    let idx := find_task_index tasks task_id
    if idx = -1 then Except.error Err.notFound
    else
      let t := tasks.getD idx.toNat default
      let t1 := { t with status := status, updatedAt := now }
      Except.ok (t1, save_tasks (tasks.set idx.toNat t1))
  else Except.error Err.validation

/-- DELETE `/tasks/...` (`delete_task`): 404 on the sentinel, otherwise pop
the task at the found index and save. -/
def delete_task (file : Option String) (task_id : Int) : Except Err String :=
  let tasks := load_tasks file
  let idx := find_task_index tasks task_id
  if idx = -1 then Except.error Err.notFound
  else Except.ok (save_tasks (tasks.eraseIdx idx.toNat))

/-- PATCH `/tasks/.../mark-in-progress`: pure delegation to
`update_task_status`. -/
def mark_in_progress (file : Option String) (task_id : Int) (now : String) :
    Except Err (Task × String) :=
  update_task_status file task_id "in-progress" now

/-- PATCH `/tasks/.../mark-done`: pure delegation to `update_task_status`. -/
def mark_done (file : Option String) (task_id : Int) (now : String) :
    Except Err (Task × String) :=
  update_task_status file task_id "done" now

end FastAPI

/-! ### The Django implementation (`tasks/views.py`, `TaskViewSet`). The
helper methods `_load_tasks`, `_save_tasks` and `_get_next_id` are
textually the same code as the FastAPI helpers, so they are definitional
aliases. Body fields read with `request.data.get(...)` can be absent and
are modelled as `Option String`; the `int(pk)` parse of path ids is
adapter glue, so ids are taken as integers directly. -/

namespace Django

/-- The `_load_tasks` method (same code as `FastAPI.load_tasks`). -/
def _load_tasks (file : Option String) : List Task := FastAPI.load_tasks file

/-- The `_save_tasks` method (same code as `FastAPI.save_tasks`). -/
def _save_tasks (tasks : List Task) : String := FastAPI.save_tasks tasks

/-- The `_get_next_id` method (same code as `FastAPI.get_next_id`). -/
def _get_next_id (tasks : List Task) : Int := FastAPI.get_next_id tasks

/-- Index scan behind `_find_task`. -/
def _find_task_from (task_id : Int) : List Task → Nat → Option (Nat × Task)
  | [], _ => none
  | t :: ts, idx =>
    if t.id = task_id then some (idx, t) else _find_task_from task_id ts (idx + 1)

/-- The `_find_task` method: the first `(index, task)` whose id matches,
or `none` (the `(None, None)` sentinel). -/
def _find_task (tasks : List Task) (task_id : Int) : Option (Nat × Task) :=
  _find_task_from task_id tasks 0

/-- GET `/tasks/` (`list`): `request.query_params.get('status')` is tested
for truthiness first — absent and the empty string both skip filtering —
then checked against the three valid values. -/
def list (file : Option String) (status_filter : Option String) :
    Except Err (List Task) :=
  let tasks := _load_tasks file
  match status_filter with
  | none => Except.ok tasks
  | some s =>
    if s = "" then Except.ok tasks
    else if validStatuses.contains s then
      Except.ok (tasks.filter (fun t => t.status == s))
    else Except.error Err.validation

/-- POST `/tasks/` (`create`): `if not description` rejects an absent or
empty description; a second check rejects strings that are empty after
`strip()`; the stored description is the stripped one. There is no
maximum-length check in this implementation. -/
def create (file : Option String) (description : Option String) (now : String) :
    Except Err (Task × String) :=
  match description with
  | none => Except.error Err.validation
  | some d =>
    if d = "" then Except.error Err.validation
    else if (pyStrip d).length = 0 then Except.error Err.validation
    else
      let tasks := _load_tasks file
      let new_task : Task :=
        { id := _get_next_id tasks, description := pyStrip d, status := "todo",
          createdAt := now, updatedAt := now }
      Except.ok (new_task, _save_tasks (tasks ++ [new_task]))

/-- GET `/tasks/id/` (`retrieve`). -/
def retrieve (file : Option String) (pk : Int) : Except Err Task :=
  let tasks := _load_tasks file
  match _find_task tasks pk with
  | none => Except.error Err.notFound
  | some p => Except.ok p.2

/-- PUT `/tasks/id/` (`update`): only `if not description` guards the body
(no strip-emptiness check and no length check, unlike `create`); the
stored value is the stripped description. -/
def update (file : Option String) (pk : Int) (description : Option String)
    (now : String) : Except Err (Task × String) :=
  match description with
  | none => Except.error Err.validation
  | some d =>
    if d = "" then Except.error Err.validation
    else
      let tasks := _load_tasks file
      match _find_task tasks pk with
      | none => Except.error Err.notFound
      | some p =>
        let t1 := { p.2 with description := pyStrip d, updatedAt := now }
        Except.ok (t1, _save_tasks (tasks.set p.1 t1))

/-- DELETE `/tasks/id/` (`destroy`). -/
def destroy (file : Option String) (pk : Int) : Except Err String :=
  let tasks := _load_tasks file
  match _find_task tasks pk with
  | none => Except.error Err.notFound
  | some p => Except.ok (_save_tasks (tasks.eraseIdx p.1))

/-- PATCH `/tasks/id/status/` (`status`): the status value (absent body
fields included) is checked against the three valid values before the
lookup; then 404, or assignment of status and `updatedAt`, save, return. -/
def status (file : Option String) (pk : Int) (new_status : Option String)
    (now : String) : Except Err (Task × String) :=
  match new_status with
  | none => Except.error Err.validation
  | some s =>
    if validStatuses.contains s then
      let tasks := _load_tasks file
      match _find_task tasks pk with
      | none => Except.error Err.notFound
      | some p =>
        let t1 := { p.2 with status := s, updatedAt := now }
        Except.ok (t1, _save_tasks (tasks.set p.1 t1))
    else Except.error Err.validation

/-- PATCH `/tasks/id/mark_in_progress/`: sets the body status to
`in-progress` and delegates to `status`. -/
def mark_in_progress (file : Option String) (pk : Int) (now : String) :
    Except Err (Task × String) :=
  status file pk (some "in-progress") now

/-- PATCH `/tasks/id/mark_done/`: sets the body status to `done` and
delegates to `status`. -/
def mark_done (file : Option String) (pk : Int) (now : String) :
    Except Err (Task × String) :=
  status file pk (some "done") now

end Django

/-- State transition of a mutating endpoint that returns a task: a success
installs the newly written file content; on any error no save has
happened, so the file is unchanged. -/
def afterWrite (file : Option String) (r : Except Err (Task × String)) :
    Option String :=
  match r with
  | Except.ok p => some p.2
  | Except.error _ => file

/-- State transition of a delete endpoint: as `afterWrite`. -/
def afterDelete (file : Option String) (r : Except Err String) : Option String :=
  match r with
  | Except.ok s => some s
  | Except.error _ => file

/-- Specification helper (not from the source): the position of the first
task with a given id. Both implementations' linear scans are proved
equivalent to it. -/
def firstIdx (task_id : Int) : List Task → Option Nat
  | [] => none
  | t :: ts =>
    if t.id = task_id then some 0 else (firstIdx task_id ts).map (fun n => n + 1)

/-- Concrete data for the scenario theorems: the task `create("a")` builds
on an empty store at time `t1`. -/
def c2task1 : Task := ⟨1, "a", "todo", "t1", "t1"⟩

/-- The task a second `create("b")` builds at time `t2`. -/
def c2task2 : Task := ⟨2, "b", "todo", "t2", "t2"⟩

/-- The file content after the first create. -/
def c2file1 : String := FastAPI.save_tasks [c2task1]

/-- The file content after the second create. -/
def c2file2 : String := FastAPI.save_tasks [c2task1, c2task2]

/-! ## Round-trip of the file codec

The spec's persistence properties rest on `json.load` inverting
`json.dump`; the lemmas below establish `parseTasks (dumps ts) = some ts`
for every task list, starting from single characters. -/

/-- Parsing one rendered hex digit recovers its value. -/
theorem hexVal_hexDigitChar : ∀ n : Nat, n < 16 → hexVal (hexDigitChar n) = some n := by
  decide

/-- Parsing four rendered hex digits recovers a value below 0x10000. -/
theorem hex4Val_hex4 (n : Nat) (h : n < 65536) :
    hex4Val (hexDigitChar (n / 4096 % 16)) (hexDigitChar (n / 256 % 16))
      (hexDigitChar (n / 16 % 16)) (hexDigitChar (n % 16)) = some n := by
  have h16 : ∀ m : Nat, m % 16 < 16 := fun m => Nat.mod_lt _ (by omega)
  rw [hex4Val]
  simp only [hexVal_hexDigitChar _ (h16 _), Option.bind_eq_bind, Option.some_bind,
    Option.some.injEq]
  omega

/-- Validity of a scalar value, unfolded to arithmetic. -/
theorem char_valid_arith (c : Char) :
    c.toNat < 55296 ∨ (57343 < c.toNat ∧ c.toNat < 1114112) := c.valid

/-- Rebuilding a character from its own scalar value succeeds. -/
theorem mkChar_toNat (c : Char) : mkChar c.toNat = some c := by
  have h : Nat.isValidChar c.toNat := c.valid
  rw [mkChar, dif_pos h]
  have h1 : Char.ofNat c.toNat = Char.ofNatAux c.toNat h := by
    simp [Char.ofNat, h]
  rw [← h1, Char.ofNat_toNat]

/-- Unfolding of the parser at a backslash (definitional). -/
theorem parseStringBodyF_backslash (fuel : Nat) (rest : List Char) :
    parseStringBodyF (fuel + 1) ('\\' :: rest)
      = (match parseEscapeChar rest with
         | some q => (parseStringBodyF fuel q.2).map (fun p => (q.1 :: p.1, p.2))
         | none => none) := rfl

/-- Unfolding of the escape decoder at `u` (definitional). -/
theorem parseEscapeChar_u (r : List Char) : parseEscapeChar ('u' :: r) = parseU r := rfl

/-- Unfolding of the hex-escape decoder (definitional). -/
theorem parseU_cons (a b c d : Char) (r : List Char) :
    parseU (a :: b :: c :: d :: r)
      = (hex4Val a b c d).bind (fun n =>
          if 55296 ≤ n && n < 56320 then parseLowSurrogate n r
          else (mkChar n).map (fun ch => (ch, r))) := rfl

/-- Unfolding of the low-surrogate decoder (definitional). -/
theorem parseLowSurrogate_cons (n : Nat) (e1 e2 a b c d : Char) (r : List Char) :
    parseLowSurrogate n (e1 :: e2 :: a :: b :: c :: d :: r)
      = (if e1 = '\\' && e2 = 'u' then
          (hex4Val a b c d).bind (fun m =>
            if 56320 ≤ m && m < 57344 then
              (mkChar (65536 + (n - 55296) * 1024 + (m - 56320))).map
                (fun ch => (ch, r))
            else none)
        else none) := rfl

/-- Bind on a present option (definitional). -/
theorem option_some_bind {α β : Type} (a : α) (f : α → Option β) :
    (some a).bind f = f a := rfl

/-- Map on a present option (definitional). -/
theorem option_map_some {α β : Type} (f : α → β) (a : α) :
    (some a).map f = some (f a) := rfl

/-- Map on an absent option (definitional). -/
theorem option_map_none {α β : Type} (f : α → β) :
    (none : Option α).map f = none := rfl

/-- Decoding the `\uXXXX` escape emitted for a basic-plane character
recovers that character. -/
theorem parseEscapeChar_bmp (c : Char) (h9 : c.toNat < 65536) (rest : List Char) :
    parseEscapeChar ('u' :: (hex4 c.toNat ++ rest)) = some (c, rest) := by
  have hv := char_valid_arith c
  have hne : ¬(decide (55296 ≤ c.toNat) && decide (c.toNat < 56320)) = true := by
    simp only [Bool.and_eq_true, decide_eq_true_eq, not_and]
    omega
  rw [parseEscapeChar_u]
  simp only [hex4, List.cons_append, List.nil_append]
  rw [parseU_cons, hex4Val_hex4 c.toNat h9, option_some_bind, if_neg hne,
    mkChar_toNat]
  rfl

/-- Decoding the surrogate pair emitted for an astral character recovers
that character. -/
theorem parseEscapeChar_astral (c : Char) (h9 : ¬ c.toNat < 65536) (rest : List Char) :
    parseEscapeChar ('u' :: (hex4 (55296 + (c.toNat - 65536) / 1024) ++
      '\\' :: 'u' :: (hex4 (56320 + (c.toNat - 65536) % 1024) ++ rest)))
      = some (c, rest) := by
  have hv := char_valid_arith c
  have hhi : 55296 + (c.toNat - 65536) / 1024 < 65536 := by omega
  have hlo : 56320 + (c.toNat - 65536) % 1024 < 65536 := by
    have := Nat.mod_lt (c.toNat - 65536) (show 0 < 1024 by omega)
    omega
  have hhiR : (decide (55296 ≤ 55296 + (c.toNat - 65536) / 1024) &&
      decide (55296 + (c.toNat - 65536) / 1024 < 56320)) = true := by
    simp only [Bool.and_eq_true, decide_eq_true_eq]
    omega
  have hloR : (decide (56320 ≤ 56320 + (c.toNat - 65536) % 1024) &&
      decide (56320 + (c.toNat - 65536) % 1024 < 57344)) = true := by
    have := Nat.mod_lt (c.toNat - 65536) (show 0 < 1024 by omega)
    simp only [Bool.and_eq_true, decide_eq_true_eq]
    omega
  have harith : 65536 + (55296 + (c.toNat - 65536) / 1024 - 55296) * 1024 +
      (56320 + (c.toNat - 65536) % 1024 - 56320) = c.toNat := by
    have := Nat.div_add_mod (c.toNat - 65536) 1024
    omega
  rw [parseEscapeChar_u]
  simp only [hex4, List.cons_append, List.append_assoc, List.nil_append]
  rw [parseU_cons, hex4Val_hex4 _ hhi, option_some_bind, if_pos hhiR,
    parseLowSurrogate_cons, if_pos (by decide), hex4Val_hex4 _ hlo,
    option_some_bind, if_pos hloR, harith, mkChar_toNat]
  rfl

/-- Parsing one escaped character undoes `escapeChar`, for every character. -/
theorem parseStringBodyF_escape (c : Char) (rest : List Char) (fuel : Nat) :
    parseStringBodyF (fuel + 1) (escapeChar c ++ rest)
      = (parseStringBodyF fuel rest).map (fun p => (c :: p.1, p.2)) := by
  have hv := char_valid_arith c
  simp only [escapeChar]
  split_ifs with h1 h2 h3 h4 h5 h6 h7 h8 h9
  · subst h1; rfl
  · subst h2; rfl
  · subst h3; rfl
  · subst h4; rfl
  · subst h5; rfl
  · subst h6; rfl
  · subst h7; rfl
  · -- printable ASCII other than quote and backslash: emitted literally
    simp only [Bool.and_eq_true, decide_eq_true_eq] at h8
    simp [parseStringBodyF, h1, h2, h8.1]
  · -- basic-plane character emitted as a single \uXXXX escape
    simp only [List.cons_append, List.append_assoc, List.nil_append]
    rw [parseStringBodyF_backslash, parseEscapeChar_bmp c h9]
  · -- astral character emitted as a surrogate pair
    simp only [List.cons_append, List.append_assoc, List.nil_append]
    rw [parseStringBodyF_backslash, parseEscapeChar_astral c h9]

/-- Each character escape is at least one character long. -/
theorem escapeChar_length_pos (c : Char) : 1 ≤ (escapeChar c).length := by
  simp only [escapeChar]
  split_ifs <;> simp [hex4]

/-- The escaped rendering is at least as long as the source. -/
theorem escList_length (cs : List Char) :
    cs.length ≤ (cs.flatMap escapeChar).length := by
  induction cs with
  | nil => simp
  | cons c cs ih =>
    simp only [List.flatMap_cons, List.length_append, List.length_cons]
    have := escapeChar_length_pos c
    omega

/-- Parsing an escaped run stops exactly at the closing quote, given one
unit of fuel per character. -/
theorem parseStringBodyF_escList (cs : List Char) : ∀ (fuel : Nat) (rest : List Char),
    cs.length < fuel →
    parseStringBodyF fuel (cs.flatMap escapeChar ++ '"' :: rest) = some (cs, rest) := by
  induction cs with
  | nil =>
    intro fuel rest h
    match fuel, h with
    | fuel + 1, _ => rfl
  | cons c cs ih =>
    intro fuel rest h
    match fuel, h with
    | fuel + 1, h =>
      rw [List.flatMap_cons, List.append_assoc, parseStringBodyF_escape,
        ih fuel rest (by simp only [List.length_cons] at h; omega)]
      rfl

/-- Parsing an escaped run with the input length as fuel. -/
theorem parseStringBody_escList (cs : List Char) (rest : List Char) :
    parseStringBody (cs.flatMap escapeChar ++ '"' :: rest) = some (cs, rest) := by
  apply parseStringBodyF_escList
  have h1 := escList_length cs
  simp only [List.length_append, List.length_cons]
  omega

/-- Consuming a quote (definitional). -/
theorem expectTok_quote (l : List Char) : expectTok '"' ('"' :: l) = some l := rfl

/-- Consuming a colon (definitional). -/
theorem expectTok_colon (l : List Char) : expectTok ':' (':' :: l) = some l := rfl

/-- Consuming a comma (definitional). -/
theorem expectTok_comma (l : List Char) : expectTok ',' (',' :: l) = some l := rfl

/-- Consuming an opening brace (definitional). -/
theorem expectTok_lbrace (l : List Char) : expectTok '{' ('{' :: l) = some l := rfl

/-- Consuming a closing brace (definitional). -/
theorem expectTok_rbrace (l : List Char) : expectTok '}' ('}' :: l) = some l := rfl

/-- Tokens skip a leading newline (definitional). -/
theorem expectTok_nl (c : Char) (l : List Char) :
    expectTok c ('\n' :: l) = expectTok c l := rfl

/-- Tokens skip a leading space (definitional). -/
theorem expectTok_sp (c : Char) (l : List Char) :
    expectTok c (' ' :: l) = expectTok c l := rfl

/-- Reading a fixed object key over its own rendering succeeds. -/
theorem expectKey_strLit (k : String) (l : List Char) :
    expectKey k (strLit k ++ ':' :: l) = some l := by
  rw [strLit]
  simp only [List.cons_append, List.append_assoc, List.singleton_append]
  simp only [expectKey, expectTok_quote, Option.bind_eq_bind, Option.some_bind,
    parseStringBody_escList]
  simp [expectTok_colon]

/-- The decimal digit character of a value below ten. -/
theorem digit_spec : ∀ n : Nat, n < 10 →
    isDigitChar (Char.ofNat (48 + n)) = true ∧ (Char.ofNat (48 + n)).toNat = 48 + n := by
  decide

/-- Digit runs compose under `parseNatAux`: consuming the rendered digits
updates the accumulator and continues into the remainder. -/
theorem parseNatAux_digits (fuel : Nat) : ∀ n : Nat, n < fuel →
    ∀ (a : Nat) (rest : List Char),
    parseNatAux ((natDigitsLE fuel n).reverse ++ rest) a
      = parseNatAux rest (a * 10 ^ (natDigitsLE fuel n).length + n) := by
  induction fuel with
  | zero => intro n h; omega
  | succ fuel ih =>
    intro n h a rest
    simp only [natDigitsLE]
    by_cases h10 : n < 10
    · obtain ⟨hd, hv⟩ := digit_spec n h10
      simp only [if_pos h10, List.reverse_singleton, List.singleton_append,
        List.length_singleton, parseNatAux, hd, if_true, hv, pow_one]
      congr 1
      omega
    · obtain ⟨hd, hv⟩ := digit_spec (n % 10) (Nat.mod_lt _ (by omega))
      simp only [if_neg h10, List.reverse_cons, List.append_assoc,
        List.singleton_append, List.length_cons]
      rw [ih (n / 10) (by omega)]
      simp only [parseNatAux, hd, if_true, hv]
      congr 1
      rw [pow_succ, ← Nat.mul_assoc]
      have hdm := Nat.div_add_mod n 10
      generalize a * 10 ^ (natDigitsLE fuel (n / 10)).length = x
      omega

/-- Every rendered digit is a digit character. -/
theorem natDigitsLE_digits (fuel : Nat) : ∀ n : Nat,
    ∀ c ∈ natDigitsLE fuel n, isDigitChar c = true := by
  induction fuel with
  | zero => intro n c hc; simp [natDigitsLE] at hc
  | succ fuel ih =>
    intro n c hc
    simp only [natDigitsLE] at hc
    by_cases h10 : n < 10
    · rw [if_pos h10] at hc
      simp only [List.mem_singleton] at hc
      subst hc
      exact (digit_spec n h10).1
    · rw [if_neg h10] at hc
      rcases List.mem_cons.mp hc with hc | hc
      · subst hc
        exact (digit_spec (n % 10) (Nat.mod_lt _ (by omega))).1
      · exact ih (n / 10) c hc

/-- The rendered digits of a number are nonempty. -/
theorem natDigitsLE_ne_nil (fuel n : Nat) : natDigitsLE (fuel + 1) n ≠ [] := by
  simp only [natDigitsLE]
  split_ifs <;> simp

/-- The rendering of a natural number starts with a digit. -/
theorem natChars_cons (n : Nat) :
    ∃ c t, natChars n = c :: t ∧ isDigitChar c = true := by
  match h : natChars n with
  | [] =>
    rw [natChars] at h
    exact absurd (List.reverse_eq_nil_iff.mp h) (natDigitsLE_ne_nil n n)
  | c :: t =>
    refine ⟨c, t, rfl, ?_⟩
    have hc : c ∈ natChars n := by rw [h]; exact List.mem_cons_self ..
    rw [natChars, List.mem_reverse] at hc
    exact natDigitsLE_digits (n + 1) n c hc

/-- A non-digit-headed remainder stops the digit scanner. -/
theorem parseNatAux_stop (a : Nat) (rest : List Char)
    (hrest : nonDigitStart rest = true) : parseNatAux rest a = (a, rest) := by
  cases rest with
  | nil => rfl
  | cons c r =>
    simp only [nonDigitStart, Bool.not_eq_true'] at hrest
    simp [parseNatAux, hrest]

/-- The natural-number codec round-trip. -/
theorem parseNat_natChars (n : Nat) (rest : List Char)
    (hrest : nonDigitStart rest = true) :
    parseNat (natChars n ++ rest) = some (n, rest) := by
  obtain ⟨c, t, hn, hc⟩ := natChars_cons n
  have hrun : parseNatAux (natChars n ++ rest) 0 = (n, rest) := by
    rw [natChars, parseNatAux_digits (n + 1) n (by omega), parseNatAux_stop _ _ hrest]
    simp
  rw [hn] at hrun ⊢
  simp only [List.cons_append, parseNat, hc, if_true]
  rw [← List.cons_append, hrun]

/-- A digit character is not a minus sign. -/
theorem digit_ne_minus (c : Char) (h : isDigitChar c = true) : ¬ c = '-' := by
  intro heq
  subst heq
  simp [isDigitChar] at h

/-- The integer codec round-trip. -/
theorem parseInt_intChars (i : Int) (rest : List Char)
    (hrest : nonDigitStart rest = true) :
    parseInt (intChars i ++ rest) = some (i, rest) := by
  rw [intChars]
  by_cases hi : i < 0
  · rw [if_pos hi]
    simp only [List.cons_append, parseInt, eq_self_iff_true, if_true,
      parseNat_natChars _ _ hrest, option_map_some, Option.some.injEq,
      Prod.mk.injEq, and_true]
    omega
  · rw [if_neg hi]
    obtain ⟨c, t, hn, hc⟩ := natChars_cons i.toNat
    rw [hn, List.cons_append]
    simp only [parseInt, if_neg (digit_ne_minus c hc)]
    rw [← List.cons_append, ← hn, parseNat_natChars _ _ hrest, option_map_some]
    simp only [Option.some.injEq, Prod.mk.injEq, and_true]
    omega

/-- The string-literal codec round-trip, quotes included. -/
theorem parseJString_strLit (s : String) (rest : List Char) :
    parseJString (strLit s ++ rest) = some (s, rest) := by
  rw [strLit]
  simp only [List.cons_append, List.append_assoc, List.singleton_append]
  show (parseStringBody (s.data.flatMap escapeChar ++ '"' :: rest)).map
      (fun p => (String.mk p.1, p.2)) = some (s, rest)
  rw [parseStringBody_escList, option_map_some]

/-- A digit character is not whitespace. -/
theorem digit_not_ws (c : Char) (h : isDigitChar c = true) : isJsonWs c = false := by
  simp only [isJsonWs, Bool.or_eq_false_iff, beq_eq_false_iff_ne]
  refine ⟨⟨⟨?_, ?_⟩, ?_⟩, ?_⟩ <;> (intro heq; subst heq; simp [isDigitChar] at h)

/-- Whitespace skipping stops at a non-whitespace character. -/
theorem skipWs_stop {c : Char} (h : isJsonWs c = false) (l : List Char) :
    skipWs (c :: l) = c :: l := by
  simp [skipWs, h]

/-- Whitespace skipping stops at a rendered integer. -/
theorem skipWs_intChars (i : Int) (l : List Char) :
    skipWs (intChars i ++ l) = intChars i ++ l := by
  rw [intChars]
  by_cases hi : i < 0
  · rw [if_pos hi, List.cons_append]
    exact skipWs_stop (by decide) _
  · rw [if_neg hi]
    obtain ⟨c, t, hn, hc⟩ := natChars_cons i.toNat
    rw [hn, List.cons_append]
    exact skipWs_stop (digit_not_ws c hc) _

/-- Whitespace skipping stops at a string literal. -/
theorem skipWs_strLit (s : String) (l : List Char) :
    skipWs (strLit s ++ l) = strLit s ++ l := by
  rw [strLit, List.cons_append]
  exact skipWs_stop (by decide) _

/-- Keys see through a leading newline (definitional). -/
theorem parseIntField_nl (k : String) (l : List Char) :
    parseIntField k ('\n' :: l) = parseIntField k l := rfl

/-- Keys see through a leading space (definitional). -/
theorem parseIntField_sp (k : String) (l : List Char) :
    parseIntField k (' ' :: l) = parseIntField k l := rfl

/-- An integer-valued field parses over its own rendering. -/
theorem parseIntField_round (k : String) (i : Int) (l : List Char)
    (hl : nonDigitStart l = true) :
    parseIntField k (strLit k ++ ':' :: ' ' :: (intChars i ++ l)) = some (i, l) := by
  simp only [parseIntField, Option.bind_eq_bind]
  rw [show (':' :: ' ' :: (intChars i ++ l)) = (':' :: (' ' :: (intChars i ++ l))) from rfl,
    expectKey_strLit, Option.some_bind,
    show skipWs (' ' :: (intChars i ++ l)) = skipWs (intChars i ++ l) from rfl,
    skipWs_intChars, parseInt_intChars i l hl]

/-- A string-valued field parses over its own rendering. -/
theorem parseStrField_round (k s : String) (l : List Char) :
    parseStrField k (strLit k ++ ':' :: ' ' :: (strLit s ++ l)) = some (s, l) := by
  simp only [parseStrField, Option.bind_eq_bind]
  rw [show (':' :: ' ' :: (strLit s ++ l)) = (':' :: (' ' :: (strLit s ++ l))) from rfl,
    expectKey_strLit, Option.some_bind,
    show skipWs (' ' :: (strLit s ++ l)) = skipWs (strLit s ++ l) from rfl,
    skipWs_strLit, parseJString_strLit]

/-- A comma-prefixed string field parses over the serializer's field
separator and rendering. -/
theorem parseStrFieldComma_round (k s : String) (l : List Char) :
    parseStrFieldComma k (',' :: '\n' :: ' ' :: ' ' :: ' ' :: ' ' ::
      (strLit k ++ ':' :: ' ' :: (strLit s ++ l))) = some (s, l) := by
  simp only [parseStrFieldComma, Option.bind_eq_bind]
  rw [expectTok_comma, Option.some_bind,
    show parseStrField k ('\n' :: ' ' :: ' ' :: ' ' :: ' ' ::
        (strLit k ++ ':' :: ' ' :: (strLit s ++ l)))
      = parseStrField k (strLit k ++ ':' :: ' ' :: (strLit s ++ l)) from rfl,
    parseStrField_round]

/-- The id field followed by the field separator. -/
theorem parseIntField_round_comma (k : String) (i : Int) (l : List Char) :
    parseIntField k (strLit k ++ ':' :: ' ' :: (intChars i ++ ',' :: l))
      = some (i, ',' :: l) :=
  parseIntField_round k i (',' :: l) rfl

/-- Consuming the object-closing brace after the serializer's final
newline and indentation (definitional). -/
theorem expectTok_rbrace_ws (l : List Char) :
    expectTok '}' ('\n' :: ' ' :: ' ' :: '}' :: l) = some l := rfl

/-- One serialized task parses back to itself. -/
theorem parseTask_dumpTask (t : Task) (rest : List Char) :
    parseTask (dumpTask t ++ rest) = some (t, rest) := by
  simp only [dumpTask, keyVal, fieldSep, List.cons_append, List.append_assoc,
    List.nil_append]
  simp only [parseTask, Option.bind_eq_bind, expectTok_lbrace, Option.some_bind,
    parseIntField_nl, parseIntField_sp, parseIntField_round_comma,
    parseStrFieldComma_round, expectTok_rbrace_ws]

/-- A serialized task starts with an opening brace. -/
theorem dumpTask_cons (t : Task) : ∃ x, dumpTask t = '{' :: x := ⟨_, rfl⟩

/-- A nonempty serialized item list starts with an opening brace. -/
theorem dumpItems_cons (t : Task) (ts : List Task) :
    ∃ x, dumpItems (t :: ts) = '{' :: x := by
  cases ts with
  | nil => exact ⟨_, rfl⟩
  | cons u ts => exact ⟨_, rfl⟩

/-- A serialized item list is at least as long as the item count. -/
theorem dumpItems_length (ts : List Task) : ∀ t : Task,
    ts.length + 1 ≤ (dumpItems (t :: ts)).length := by
  induction ts with
  | nil =>
    intro t
    obtain ⟨x, hx⟩ := dumpItems_cons t []
    rw [hx]
    simp
  | cons u ts ih =>
    intro t
    show ts.length + 1 + 1 ≤ (dumpTask t ++ ',' :: '\n' :: ' ' :: ' ' :: dumpItems (u :: ts)).length
    simp only [List.length_append, List.length_cons]
    have := ih u
    omega

/-- Parsing the rendered item list consumes it up to the closing bracket. -/
theorem parseItems_dumpItems (ts : List Task) : ∀ (t : Task) (fuel : Nat) (rest : List Char),
    ts.length < fuel →
    parseItems fuel (dumpItems (t :: ts) ++ '\n' :: ']' :: rest) = some (t :: ts, rest) := by
  induction ts with
  | nil =>
    intro t fuel rest h
    match fuel, h with
    | fuel + 1, _ =>
      show parseItems (fuel + 1) (dumpTask t ++ '\n' :: ']' :: rest) = some ([t], rest)
      simp only [parseItems, Option.bind_eq_bind, parseTask_dumpTask, Option.some_bind]
      rfl
  | cons u ts ih =>
    intro t fuel rest h
    match fuel, h with
    | fuel + 1, h =>
      obtain ⟨x, hx⟩ := dumpItems_cons u ts
      show parseItems (fuel + 1)
          ((dumpTask t ++ ',' :: '\n' :: ' ' :: ' ' :: dumpItems (u :: ts))
            ++ '\n' :: ']' :: rest) = some (t :: u :: ts, rest)
      rw [List.append_assoc]
      simp only [List.cons_append]
      simp only [parseItems, Option.bind_eq_bind, parseTask_dumpTask, Option.some_bind]
      show (parseItems fuel
          (skipWs (dumpItems (u :: ts) ++ '\n' :: ']' :: rest))).map
          (fun q => (t :: q.1, q.2)) = some (t :: u :: ts, rest)
      rw [hx, List.cons_append, skipWs_stop (by decide), ← List.cons_append, ← hx,
        ih u fuel rest (by simp only [List.length_cons] at h; omega)]
      rfl

/-- The file codec round-trip: parsing a dump recovers the task list. -/
theorem parseTasks_dumps (ts : List Task) : parseTasks (dumps ts) = some ts := by
  cases ts with
  | nil => rfl
  | cons t ts =>
    obtain ⟨x, hx⟩ := dumpItems_cons t ts
    have hstep : parseTasks (dumps (t :: ts))
        = parseTasksTail
            (('\n' :: ' ' :: ' ' :: (dumpItems (t :: ts) ++ ['\n', ']'])).length + 1)
            (skipWs (dumpItems (t :: ts) ++ ['\n', ']'])) := rfl
    rw [hstep, hx, List.cons_append, skipWs_stop (by decide)]
    simp only [parseTasksTail]
    rw [if_neg (by decide), ← List.cons_append, ← hx]
    have hfuel : ts.length
        < ('\n' :: ' ' :: ' ' :: (dumpItems (t :: ts) ++ ['\n', ']'])).length + 1 := by
      have := dumpItems_length ts t
      simp only [List.length_cons, List.length_append]
      omega
    rw [show (['\n', ']'] : List Char) = '\n' :: ']' :: [] from rfl,
      parseItems_dumpItems ts t _ [] hfuel]
    rfl

/-! ## Repository-level lemmas -/

/-- Loading a freshly saved list returns it unchanged: the file codec
round-trip at the repository boundary. -/
theorem load_save (ts : List Task) :
    FastAPI.load_tasks (some (FastAPI.save_tasks ts)) = ts := by
  simp [FastAPI.load_tasks, FastAPI.save_tasks, parseTasks_dumps]

/-- The FastAPI index scan, characterized by `firstIdx`. -/
theorem find_task_index_from_spec (task_id : Int) : ∀ (ts : List Task) (i : Int),
    FastAPI.find_task_index_from task_id ts i
      = match firstIdx task_id ts with
        | some n => i + n
        | none => -1 := by
  intro ts
  induction ts with
  | nil => intro i; rfl
  | cons t ts ih =>
    intro i
    simp only [FastAPI.find_task_index_from, firstIdx]
    by_cases h : t.id = task_id
    · simp [h]
    · rw [if_neg h, if_neg h, ih (i + 1)]
      cases firstIdx task_id ts with
      | none => rfl
      | some n =>
        show i + 1 + (n : Int) = i + ((n + 1 : Nat) : Int)
        push_cast
        omega

/-- The FastAPI `find_task_index`, characterized by `firstIdx`. -/
theorem find_task_index_spec (ts : List Task) (task_id : Int) :
    FastAPI.find_task_index ts task_id
      = match firstIdx task_id ts with
        | some n => (n : Int)
        | none => -1 := by
  rw [FastAPI.find_task_index, find_task_index_from_spec]
  cases firstIdx task_id ts with
  | none => rfl
  | some n => simp

/-- The Django member scan, characterized by `firstIdx`. -/
theorem django_find_task_from_spec (task_id : Int) : ∀ (ts : List Task) (k : Nat),
    Django._find_task_from task_id ts k
      = (firstIdx task_id ts).map (fun n => (k + n, ts.getD n default)) := by
  intro ts
  induction ts with
  | nil => intro k; rfl
  | cons t ts ih =>
    intro k
    simp only [Django._find_task_from, firstIdx]
    by_cases h : t.id = task_id
    · simp [h]
    · rw [if_neg h, if_neg h, ih (k + 1)]
      cases firstIdx task_id ts with
      | none => rfl
      | some n =>
        show some (k + 1 + n, ts.getD n default)
          = some (k + (n + 1), (t :: ts).getD (n + 1) default)
        rw [List.getD_cons_succ]
        have harith : k + 1 + n = k + (n + 1) := by omega
        rw [harith]

/-- The Django `_find_task`, characterized by `firstIdx`. -/
theorem django_find_task_spec (ts : List Task) (task_id : Int) :
    Django._find_task ts task_id
      = (firstIdx task_id ts).map (fun n => (n, ts.getD n default)) := by
  rw [Django._find_task, django_find_task_from_spec]
  cases firstIdx task_id ts with
  | none => rfl
  | some n => simp

/-- Absence characterization of `firstIdx`. -/
theorem firstIdx_eq_none (task_id : Int) : ∀ ts : List Task,
    firstIdx task_id ts = none ↔ ∀ t ∈ ts, t.id ≠ task_id := by
  intro ts
  induction ts with
  | nil => simp [firstIdx]
  | cons t ts ih =>
    simp only [firstIdx, List.mem_cons]
    by_cases h : t.id = task_id
    · simp [h]
    · rw [if_neg h]
      cases hf : firstIdx task_id ts with
      | none =>
        simp only [option_map_none, true_iff]
        intro u hu
        rcases hu with hu | hu
        · subst hu; exact h
        · exact (ih.mp hf) u hu
      | some n =>
        simp only [option_map_some]
        constructor
        · intro hc; exact absurd hc (by simp)
        · intro hall
          have hnone : firstIdx task_id ts = none :=
            ih.mpr (fun u hu => hall u (Or.inr hu))
          rw [hf] at hnone
          exact Option.noConfusion hnone

/-- Presence characterization of `firstIdx`: the found index is in range,
carries the searched id, and is the first such position. -/
theorem firstIdx_spec (task_id : Int) : ∀ (ts : List Task) (n : Nat),
    firstIdx task_id ts = some n →
    n < ts.length ∧ (ts.getD n default).id = task_id ∧
      ∀ m < n, (ts.getD m default).id ≠ task_id := by
  intro ts
  induction ts with
  | nil => intro n h; exact absurd h (by simp [firstIdx])
  | cons t ts ih =>
    intro n h
    simp only [firstIdx] at h
    by_cases ht : t.id = task_id
    · rw [if_pos ht] at h
      cases h
      exact ⟨by simp, ht, fun m hm => absurd hm (by omega)⟩
    · rw [if_neg ht] at h
      cases hf : firstIdx task_id ts with
      | none => rw [hf] at h; exact absurd h (by simp)
      | some m =>
        rw [hf] at h
        simp only [option_map_some, Option.some.injEq] at h
        subst h
        obtain ⟨h1, h2, h3⟩ := ih m hf
        refine ⟨by simp; omega, by simpa using h2, ?_⟩
        intro j hj
        cases j with
        | zero => simpa using ht
        | succ j =>
          rw [List.getD_cons_succ]
          exact h3 j (by omega)

/-- A member with the searched id forces `firstIdx` to find something. -/
theorem firstIdx_isSome (task_id : Int) (ts : List Task) (t : Task)
    (ht : t ∈ ts) (hid : t.id = task_id) : firstIdx task_id ts ≠ none := by
  intro hc
  exact (firstIdx_eq_none task_id ts |>.mp hc) t ht hid

/-- The id assigned by `get_next_id` exceeds every id in the store. -/
theorem get_next_id_gt (ts : List Task) (t : Task) (ht : t ∈ ts) :
    t.id < FastAPI.get_next_id ts := by
  have key : ∀ (l : List Task) (a : Int),
      a ≤ l.foldl (fun acc u => max acc u.id) a ∧
      ∀ u ∈ l, u.id ≤ l.foldl (fun acc u => max acc u.id) a := by
    intro l
    induction l with
    | nil => intro a; exact ⟨le_refl a, by simp⟩
    | cons v l ih =>
      intro a
      constructor
      · exact le_trans (le_max_left a v.id) (ih (max a v.id)).1
      · intro u hu
        rcases List.mem_cons.mp hu with hu | hu
        · subst hu
          exact le_trans (le_max_right a u.id) (ih (max a u.id)).1
        · exact (ih (max a v.id)).2 u hu
  cases ts with
  | nil => exact absurd ht (List.not_mem_nil t)
  | cons v l =>
    show t.id < l.foldl (fun acc u => max acc u.id) v.id + 1
    rcases List.mem_cons.mp ht with h | h
    · subst h
      have := (key l t.id).1
      omega
    · have := (key l v.id).2 t h
      omega

/-- The value of `get_next_id` on a nonempty store is one more than an id
that is present: the fold really computes the maximum. -/
theorem get_next_id_mem (ts : List Task) (h : ts ≠ []) :
    ∃ t ∈ ts, FastAPI.get_next_id ts = t.id + 1 := by
  have key : ∀ (l : List Task) (a : Int),
      l.foldl (fun acc u => max acc u.id) a = a ∨
      ∃ u ∈ l, l.foldl (fun acc u => max acc u.id) a = u.id := by
    intro l
    induction l with
    | nil => intro a; exact Or.inl rfl
    | cons v l ih =>
      intro a
      rcases ih (max a v.id) with hc | ⟨u, hu, hc⟩
      · rcases max_choice a v.id with hm | hm
        · exact Or.inl (hc.trans hm)
        · exact Or.inr ⟨v, List.mem_cons_self .., hc.trans hm⟩
      · exact Or.inr ⟨u, List.mem_cons_of_mem v hu, hc⟩
  cases ts with
  | nil => exact absurd rfl h
  | cons v l =>
    rcases key l v.id with hc | ⟨u, hu, hc⟩
    · exact ⟨v, List.mem_cons_self .., congrArg (fun x => x + 1) hc⟩
    · exact ⟨u, List.mem_cons_of_mem v hu, congrArg (fun x => x + 1) hc⟩

/-- Setting one position leaves every other position unchanged (also out
of range, where both sides give the default). -/
theorem getD_set_ne (l : List Task) (i j : Nat) (a : Task) (h : i ≠ j) :
    (l.set i a).getD j default = l.getD j default := by
  by_cases hj : j < l.length
  · rw [List.getD_eq_getElem _ _ (by simpa using hj), List.getD_eq_getElem _ _ hj]
    exact List.getElem_set_ne h _
  · rw [List.getD_eq_default _ _ (by simpa using hj),
      List.getD_eq_default _ _ (by omega)]

/-- In a store with unique ids, removing the position holding an id
leaves no task with that id. -/
theorem eraseIdx_no_id (tasks : List Task) (task_id : Int) (n : Nat)
    (hnd : (tasks.map Task.id).Nodup) (hn : n < tasks.length)
    (hid : (tasks.getD n default).id = task_id) :
    ∀ u ∈ tasks.eraseIdx n, u.id ≠ task_id := by
  intro u hu
  rw [List.eraseIdx_eq_take_drop_succ, List.mem_append] at hu
  rw [List.getD_eq_getElem _ _ hn] at hid
  have hnm : n < (tasks.map Task.id).length := by simpa using hn
  have hkey : ∀ m : Nat, ∀ hm : m < tasks.length, m ≠ n → tasks[m].id ≠ task_id := by
    intro m hm hne heq
    have hmm : m < (tasks.map Task.id).length := by simpa using hm
    have hmap : (tasks.map Task.id)[m] = (tasks.map Task.id)[n] := by
      rw [List.getElem_map, List.getElem_map, heq, hid]
    exact hne (hnd.getElem_inj_iff.mp hmap)
  rcases hu with hu | hu
  · obtain ⟨i, hi, hgi⟩ := List.getElem_of_mem hu
    have hilen : i < n := by
      have h2 := hi
      simp only [List.length_take] at h2
      omega
    have hit : i < tasks.length := by omega
    have hstep : (tasks.take n)[i] = tasks[i] := List.getElem_take ..
    rw [hstep] at hgi
    subst hgi
    exact hkey i hit (by omega)
  · obtain ⟨i, hi, hgi⟩ := List.getElem_of_mem hu
    have hit : n + 1 + i < tasks.length := by
      have h2 := hi
      simp only [List.length_drop] at h2
      omega
    have hstep : (tasks.drop (n + 1))[i] = tasks[n + 1 + i] := List.getElem_drop ..
    rw [hstep] at hgi
    subst hgi
    exact hkey (n + 1 + i) hit (by omega)

/-- Outcome of a status update when the status is valid and the id is at
position `n`: both implementations return the task with the status and
timestamp replaced, and write the store with position `n` updated. -/
theorem update_status_ok (file : Option String) (task_id : Int) (s now : String)
    (hs : s ∈ validStatuses) (n : Nat)
    (hn : firstIdx task_id (FastAPI.load_tasks file) = some n) :
    FastAPI.update_task_status file task_id s now
      = Except.ok
          ({ (FastAPI.load_tasks file).getD n default with status := s, updatedAt := now },
           FastAPI.save_tasks ((FastAPI.load_tasks file).set n
             { (FastAPI.load_tasks file).getD n default with status := s, updatedAt := now })) ∧
    Django.status file task_id (some s) now
      = Except.ok
          ({ (FastAPI.load_tasks file).getD n default with status := s, updatedAt := now },
           FastAPI.save_tasks ((FastAPI.load_tasks file).set n
             { (FastAPI.load_tasks file).getD n default with status := s, updatedAt := now })) := by
  have hb : validStatuses.contains s = true := List.elem_iff.mpr hs
  have hidx : FastAPI.find_task_index (FastAPI.load_tasks file) task_id = (n : Int) := by
    rw [find_task_index_spec, hn]
  have htn : ((n : Int)).toNat = n := by omega
  constructor
  · simp only [FastAPI.update_task_status, FastAPI.TaskStatus_valid, hb, if_true,
      hidx, htn]
    rw [if_neg (by omega)]
  · simp only [Django.status, Django._load_tasks, Django._save_tasks, hb, if_true]
    rw [django_find_task_spec, hn, option_map_some]

/-- Outcome of a status update when the status is valid but no task has
the id: both implementations report NotFoundError. -/
theorem update_status_absent (file : Option String) (task_id : Int) (s now : String)
    (hs : s ∈ validStatuses)
    (habs : ∀ t ∈ FastAPI.load_tasks file, t.id ≠ task_id) :
    FastAPI.update_task_status file task_id s now = Except.error Err.notFound ∧
    Django.status file task_id (some s) now = Except.error Err.notFound := by
  have hb : validStatuses.contains s = true := List.elem_iff.mpr hs
  have hnone : firstIdx task_id (FastAPI.load_tasks file) = none :=
    (firstIdx_eq_none task_id _).mpr habs
  have hidx : FastAPI.find_task_index (FastAPI.load_tasks file) task_id = -1 := by
    rw [find_task_index_spec, hnone]
  constructor
  · simp only [FastAPI.update_task_status, FastAPI.TaskStatus_valid, hb, if_true, hidx]
  · simp only [Django.status, Django._load_tasks, hb, if_true]
    rw [django_find_task_spec, hnone, option_map_none]

/-- Outcome of a status update when the status value is invalid: both
implementations report ValidationError before loading or writing. -/
theorem update_status_invalid (file : Option String) (task_id : Int) (s now : String)
    (hs : s ∉ validStatuses) :
    FastAPI.update_task_status file task_id s now = Except.error Err.validation ∧
    Django.status file task_id (some s) now = Except.error Err.validation := by
  have hb : ¬ validStatuses.contains s = true := fun hc => hs (List.elem_iff.mp hc)
  constructor
  · simp only [FastAPI.update_task_status, FastAPI.TaskStatus_valid]
    rw [if_neg hb]
  · simp only [Django.status]
    rw [if_neg hb]

/-- Outcome of a lookup when no task has the id: both implementations
report NotFoundError. -/
theorem get_absent (file : Option String) (task_id : Int)
    (habs : ∀ t ∈ FastAPI.load_tasks file, t.id ≠ task_id) :
    FastAPI.get_task file task_id = Except.error Err.notFound ∧
    Django.retrieve file task_id = Except.error Err.notFound := by
  have hnone : firstIdx task_id (FastAPI.load_tasks file) = none :=
    (firstIdx_eq_none task_id _).mpr habs
  have hidx : FastAPI.find_task_index (FastAPI.load_tasks file) task_id = -1 := by
    rw [find_task_index_spec, hnone]
  constructor
  · simp only [FastAPI.get_task, hidx]
    rfl
  · simp only [Django.retrieve, Django._load_tasks]
    rw [django_find_task_spec, hnone, option_map_none]

/-- Outcome of a delete when the id is at position `n`: both
implementations write the store with that position removed. -/
theorem delete_ok (file : Option String) (task_id : Int) (n : Nat)
    (hn : firstIdx task_id (FastAPI.load_tasks file) = some n) :
    FastAPI.delete_task file task_id
      = Except.ok (FastAPI.save_tasks ((FastAPI.load_tasks file).eraseIdx n)) ∧
    Django.destroy file task_id
      = Except.ok (FastAPI.save_tasks ((FastAPI.load_tasks file).eraseIdx n)) := by
  have hidx : FastAPI.find_task_index (FastAPI.load_tasks file) task_id = (n : Int) := by
    rw [find_task_index_spec, hn]
  have htn : ((n : Int)).toNat = n := by omega
  constructor
  · simp only [FastAPI.delete_task, hidx, htn]
    rw [if_neg (by omega)]
  · simp only [Django.destroy, Django._load_tasks, Django._save_tasks]
    rw [django_find_task_spec, hn, option_map_some]

/-- Inversion of a successful create: the new task's id exceeds every id
loaded from the old store, and the written store is the old list with the
new task appended. -/
theorem create_ok_inv (file : Option String) (d now : String) (t : Task) (f1 : String)
    (h : FastAPI.create_task file d now = Except.ok (t, f1)) :
    (∀ u ∈ FastAPI.load_tasks file, u.id < t.id) ∧
    FastAPI.load_tasks (some f1) = FastAPI.load_tasks file ++ [t] := by
  by_cases hv : FastAPI.TaskCreate_valid d = true
  · simp only [FastAPI.create_task, hv, if_true, Except.ok.injEq, Prod.mk.injEq] at h
    obtain ⟨ht, hf⟩ := h
    subst hf
    constructor
    · intro u hu
      rw [← ht]
      exact get_next_id_gt _ u hu
    · rw [load_save, ht]
  · simp only [FastAPI.create_task, hv, if_false] at h
    exact absurd h (by simp)

/-- Outcome of the FastAPI description update when pydantic accepts the
body and the id is at position `n`. -/
theorem update_task_ok (file : Option String) (task_id : Int) (d now : String)
    (hv : FastAPI.TaskUpdate_valid d = true) (n : Nat)
    (hn : firstIdx task_id (FastAPI.load_tasks file) = some n) :
    FastAPI.update_task file task_id d now
      = Except.ok
          ({ (FastAPI.load_tasks file).getD n default with
              description := d, updatedAt := now },
           FastAPI.save_tasks ((FastAPI.load_tasks file).set n
             { (FastAPI.load_tasks file).getD n default with
               description := d, updatedAt := now })) := by
  have hidx : FastAPI.find_task_index (FastAPI.load_tasks file) task_id = (n : Int) := by
    rw [find_task_index_spec, hn]
  have htn : ((n : Int)).toNat = n := by omega
  simp only [FastAPI.update_task, hv, if_true, hidx, htn]
  rw [if_neg (by omega)]

/-- Outcome of the Django description update when the description is
truthy and the id is at position `n`: the stripped description is stored,
with no length or strip-emptiness check. -/
theorem django_update_ok (file : Option String) (task_id : Int) (d now : String)
    (hd : ¬ d = "") (n : Nat)
    (hn : firstIdx task_id (FastAPI.load_tasks file) = some n) :
    Django.update file task_id (some d) now
      = Except.ok
          ({ (FastAPI.load_tasks file).getD n default with
              description := pyStrip d, updatedAt := now },
           FastAPI.save_tasks ((FastAPI.load_tasks file).set n
             { (FastAPI.load_tasks file).getD n default with
               description := pyStrip d, updatedAt := now })) := by
  simp only [Django.update, Django._load_tasks, Django._save_tasks]
  rw [if_neg hd, django_find_task_spec, hn, option_map_some]

/-! ## The claims -/

/-- C3: loadAll returns the empty sequence, raising no error, whenever the
backing file is absent or its content is unparsable; in particular a
missing file, and any content the parser rejects — such as "not json" —
load as the empty sequence in both implementations. -/
theorem C3_load_missing_or_unparsable :
    (FastAPI.load_tasks none = [] ∧ Django._load_tasks none = []) ∧
    (∀ s : String, parseTasks s = none →
      FastAPI.load_tasks (some s) = [] ∧ Django._load_tasks (some s) = []) ∧
    (FastAPI.load_tasks (some "not json") = [] ∧
      Django._load_tasks (some "not json") = []) := by
  refine ⟨⟨rfl, rfl⟩, ?_, rfl, rfl⟩
  intro s hs
  constructor <;> simp [FastAPI.load_tasks, Django._load_tasks, hs]

/-- Witness for C3 at the concrete unparsable content "not json". -/
theorem C3_witness :
    FastAPI.load_tasks (some "not json") = [] ∧
    Django._load_tasks (some "not json") = [] :=
  C3_load_missing_or_unparsable.2.1 "not json" rfl

/-- C10: in the Django implementation, a status filter that is provided
but equal to the empty string is treated as absent by Python truthiness:
the full unfiltered list is returned and no ValidationError occurs. -/
theorem C10_django_list_empty_filter (file : Option String) :
    Django.list file (some "") = Except.ok (Django._load_tasks file) ∧
    Django.list file (some "") = Django.list file none := by
  exact ⟨rfl, rfl⟩

/-- C8: an unmodified save of the loaded sequence followed by a reload
yields the identical sequence, field for field and in order, from every
file state, in both implementations. -/
theorem C8_save_load_roundtrip (file : Option String) :
    FastAPI.load_tasks (some (FastAPI.save_tasks (FastAPI.load_tasks file)))
      = FastAPI.load_tasks file ∧
    Django._load_tasks (some (Django._save_tasks (Django._load_tasks file)))
      = Django._load_tasks file :=
  ⟨load_save _, load_save _⟩

set_option maxRecDepth 100000 in
/-- C2 as stated is false: ids are reused after a delete of the task
holding the maximal id. From an empty store, two creates assign ids 1
and 2; after delete(2) the next create assigns id 2 again, so the
sequence create, create, delete, create reuses an id. -/
theorem C2_counterexample :
    FastAPI.create_task none "a" "t1" = Except.ok (c2task1, c2file1) ∧
    FastAPI.create_task (some c2file1) "b" "t2" = Except.ok (c2task2, c2file2) ∧
    FastAPI.delete_task (some c2file2) 2 = Except.ok c2file1 ∧
    (FastAPI.create_task (some c2file1) "c" "t4").map (fun p => p.1.id)
      = Except.ok 2 ∧
    c2task2.id = 2 :=
  ⟨rfl, rfl, rfl, rfl, rfl⟩

/-- C2 amended: nextId returns 1 on the empty store and the maximum
stored id plus one otherwise; hence the id assigned by a create strictly
exceeds every id present at that moment, and consecutive creates with no
intervening delete assign strictly increasing ids. (Ids of deleted
maximal tasks are reused, per the counterexample.) -/
theorem C2_next_id_monotone :
    FastAPI.get_next_id [] = 1 ∧
    (∀ ts : List Task, ts ≠ [] →
      ∃ t ∈ ts, FastAPI.get_next_id ts = t.id + 1 ∧ ∀ u ∈ ts, u.id ≤ t.id) ∧
    (∀ (file : Option String) (d now : String) (t : Task) (f1 : String),
      FastAPI.create_task file d now = Except.ok (t, f1) →
      (∀ u ∈ FastAPI.load_tasks file, u.id < t.id) ∧
      FastAPI.load_tasks (some f1) = FastAPI.load_tasks file ++ [t]) ∧
    (∀ (file : Option String) (d1 d2 n1 n2 : String) (t1 t2 : Task) (f1 f2 : String),
      FastAPI.create_task file d1 n1 = Except.ok (t1, f1) →
      FastAPI.create_task (some f1) d2 n2 = Except.ok (t2, f2) →
      t1.id < t2.id) := by
  refine ⟨rfl, ?_, ?_, ?_⟩
  · intro ts hne
    obtain ⟨t, ht, hmax⟩ := get_next_id_mem ts hne
    refine ⟨t, ht, hmax, ?_⟩
    intro u hu
    have := get_next_id_gt ts u hu
    omega
  · intro file d now t f1 h
    exact create_ok_inv file d now t f1 h
  · intro file d1 d2 n1 n2 t1 t2 f1 f2 h1 h2
    have k1 := create_ok_inv file d1 n1 t1 f1 h1
    have k2 := create_ok_inv (some f1) d2 n2 t2 f2 h2
    apply k2.1 t1
    rw [k1.2]
    simp

set_option maxRecDepth 100000 in
/-- Witness for the amended C2 on the concrete two-create scenario. -/
theorem C2_next_id_monotone_witness : c2task1.id < c2task2.id :=
  C2_next_id_monotone.2.2.2 none "a" "b" "t1" "t2" c2task1 c2task2 c2file1 c2file2
    rfl rfl

set_option maxRecDepth 100000 in
/-- C1 as stated is false on both implementations: FastAPI accepts the
documented example but stores the description untrimmed — and accepts a
whitespace-only description — while Django accepts a 501-character
description (no maximum-length check). -/
theorem C1_counterexample :
    (FastAPI.create_task none "  My task  " "t").map (fun p => p.1.description)
      = Except.ok "  My task  " ∧
    (FastAPI.create_task none "   " "t").isOk = true ∧
    (Django.create none (some (String.mk (List.replicate 501 'a'))) "t").isOk = true ∧
    (String.mk (List.replicate 501 'a')).length = 501 ∧
    pyStrip "  My task  " = "My task" :=
  ⟨rfl, rfl, rfl, rfl, rfl⟩

/-- C1 amended: the Django create fails with ValidationError exactly when
the description is absent, empty, or whitespace-only, and on success
stores the trimmed description (with no maximum-length check); the
FastAPI create fails with ValidationError exactly when the raw
description has length 0 or above 500, and on success stores the
description untrimmed (so whitespace-only descriptions are accepted). -/
theorem C1_create_validation (file : Option String) (d now : String) :
    Django.create file none now = Except.error Err.validation ∧
    (pyStrip d = "" → Django.create file (some d) now = Except.error Err.validation) ∧
    (pyStrip d ≠ "" →
      (Django.create file (some d) now).map (fun p => p.1.description)
        = Except.ok (pyStrip d)) ∧
    (¬ (1 ≤ d.length ∧ d.length ≤ 500) →
      FastAPI.create_task file d now = Except.error Err.validation) ∧
    (1 ≤ d.length → d.length ≤ 500 →
      (FastAPI.create_task file d now).map (fun p => p.1.description)
        = Except.ok d) := by
  refine ⟨rfl, ?_, ?_, ?_, ?_⟩
  · intro h
    by_cases hd : d = ""
    · simp [Django.create, hd]
    · have hlen : (pyStrip d).length = 0 := by rw [h]; rfl
      simp only [Django.create]
      rw [if_neg hd, if_pos hlen]
  · intro h
    have hd : ¬ d = "" := by
      intro hd
      exact h (by rw [hd]; rfl)
    have hlen : ¬ (pyStrip d).length = 0 := by
      intro hl
      apply h
      exact String.ext (List.length_eq_zero.mp hl)
    simp only [Django.create]
    rw [if_neg hd, if_neg hlen]
    rfl
  · intro h
    have hv : ¬ FastAPI.TaskCreate_valid d = true := by
      simp only [FastAPI.TaskCreate_valid, Bool.and_eq_true, decide_eq_true_eq]
      intro hc
      exact h hc
    simp only [FastAPI.create_task]
    rw [if_neg hv]
  · intro h1 h2
    have hv : FastAPI.TaskCreate_valid d = true := by
      simp only [FastAPI.TaskCreate_valid, Bool.and_eq_true, decide_eq_true_eq]
      exact ⟨h1, h2⟩
    simp only [FastAPI.create_task]
    rw [if_pos hv]
    rfl

/-- Witness for the amended C1 at the documented example input. -/
theorem C1_create_validation_witness :
    pyStrip "  My task  " ≠ "" ∧
    (Django.create none (some "  My task  ") "t").map (fun p => p.1.description)
      = Except.ok (pyStrip "  My task  ") :=
  ⟨by decide, (C1_create_validation none "  My task  " "t").2.2.1 (by decide)⟩

/-- C4: updateStatus with a status outside the three valid values fails
with ValidationError in both implementations and performs no write (the
file state is unchanged), for every store and id; with a valid status and
a present id it returns the task with the status and updatedAt replaced,
writing the store with only that position updated; with a valid status
and an absent id it fails with NotFoundError. -/
theorem C4_update_status (file : Option String) (task_id : Int) (s now : String) :
    (s ∉ validStatuses →
      FastAPI.update_task_status file task_id s now = Except.error Err.validation ∧
      Django.status file task_id (some s) now = Except.error Err.validation ∧
      afterWrite file (FastAPI.update_task_status file task_id s now) = file ∧
      afterWrite file (Django.status file task_id (some s) now) = file) ∧
    (s ∈ validStatuses → (∀ t ∈ FastAPI.load_tasks file, t.id ≠ task_id) →
      FastAPI.update_task_status file task_id s now = Except.error Err.notFound ∧
      Django.status file task_id (some s) now = Except.error Err.notFound) ∧
    (s ∈ validStatuses → ∀ n : Nat,
      firstIdx task_id (FastAPI.load_tasks file) = some n →
      ∃ t1 f1,
        FastAPI.update_task_status file task_id s now = Except.ok (t1, f1) ∧
        Django.status file task_id (some s) now = Except.ok (t1, f1) ∧
        t1.status = s ∧ t1.updatedAt = now ∧
        t1.id = ((FastAPI.load_tasks file).getD n default).id ∧
        FastAPI.load_tasks (some f1) = (FastAPI.load_tasks file).set n t1) := by
  refine ⟨?_, ?_, ?_⟩
  · intro hs
    obtain ⟨h1, h2⟩ := update_status_invalid file task_id s now hs
    exact ⟨h1, h2, by rw [h1]; rfl, by rw [h2]; rfl⟩
  · intro hs habs
    exact update_status_absent file task_id s now hs habs
  · intro hs n hn
    obtain ⟨h1, h2⟩ := update_status_ok file task_id s now hs n hn
    exact ⟨_, _, h1, h2, rfl, rfl, rfl, by rw [load_save]⟩

/-- Witness for C4 at the invalid status value "bogus". -/
theorem C4_update_status_witness :
    FastAPI.update_task_status none 1 "bogus" "t" = Except.error Err.validation ∧
    Django.status none 1 (some "bogus") "t" = Except.error Err.validation ∧
    afterWrite none (FastAPI.update_task_status none 1 "bogus" "t") = none ∧
    afterWrite none (Django.status none 1 (some "bogus") "t") = none :=
  (C4_update_status none 1 "bogus" "t").1 (by decide)

/-- C9: a successful updateStatus changes only the target task's status
and updatedAt: its id, description and createdAt are unchanged, the
stored sequence keeps its length and order, and every other position is
unchanged field for field — in both implementations. -/
theorem C9_update_status_frame (file : Option String) (task_id : Int) (s now : String)
    (hs : s ∈ validStatuses) (n : Nat)
    (hn : firstIdx task_id (FastAPI.load_tasks file) = some n) :
    ∃ t1 f1,
      FastAPI.update_task_status file task_id s now = Except.ok (t1, f1) ∧
      Django.status file task_id (some s) now = Except.ok (t1, f1) ∧
      t1.id = ((FastAPI.load_tasks file).getD n default).id ∧
      t1.description = ((FastAPI.load_tasks file).getD n default).description ∧
      t1.createdAt = ((FastAPI.load_tasks file).getD n default).createdAt ∧
      t1.status = s ∧ t1.updatedAt = now ∧
      FastAPI.load_tasks (some f1) = (FastAPI.load_tasks file).set n t1 ∧
      (FastAPI.load_tasks (some f1)).length = (FastAPI.load_tasks file).length ∧
      (FastAPI.load_tasks (some f1)).getD n default = t1 ∧
      (∀ m : Nat, m ≠ n →
        (FastAPI.load_tasks (some f1)).getD m default
          = (FastAPI.load_tasks file).getD m default) := by
  obtain ⟨h1, h2⟩ := update_status_ok file task_id s now hs n hn
  have hlen : n < (FastAPI.load_tasks file).length := (firstIdx_spec task_id _ n hn).1
  refine ⟨_, _, h1, h2, rfl, rfl, rfl, rfl, rfl, by rw [load_save], ?_, ?_, ?_⟩
  · rw [load_save]
    exact List.length_set ..
  · rw [load_save, List.getD_eq_getElem _ _ (by simpa using hlen)]
    exact List.getElem_set_self _
  · intro m hm
    rw [load_save]
    exact getD_set_ne _ n m _ (fun hc => hm hc.symm)

set_option maxRecDepth 400000 in
/-- Witness for C9 on a concrete two-task store. -/
theorem C9_update_status_frame_witness :
    (FastAPI.update_task_status (some c2file2) 1 "done" "t9").isOk = true := by
  obtain ⟨t1, f1, h1, h2⟩ :=
    C9_update_status_frame (some c2file2) 1 "done" "t9" (by decide) 0 (by rfl)
  rw [h1]
  rfl

set_option maxRecDepth 400000 in
/-- C5 as stated is false on both implementations: Django's update
accepts a whitespace-only description — which create rejects — and stores
it stripped to the empty string, while FastAPI's update stores the
description untrimmed. -/
theorem C5_counterexample :
    (Django.update (some c2file1) 1 (some "   ") "t5").map (fun p => p.1.description)
      = Except.ok "" ∧
    (FastAPI.update_task (some c2file1) 1 "  x  " "t5").map (fun p => p.1.description)
      = Except.ok "  x  " :=
  ⟨rfl, rfl⟩

/-- C5 amended: Django's update fails with ValidationError only when the
description is absent or the empty string (whitespace-only values pass,
unlike in create, and there is no length cap); it fails with
NotFoundError when no task has the id; on success it stores the stripped
description and refreshes updatedAt. FastAPI's update applies the same
pydantic validation as its create (raw length between 1 and 500, no
trimming); it fails with NotFoundError when no task has the id; on
success it stores the description untrimmed and refreshes updatedAt. -/
theorem C5_update_description (file : Option String) (pk : Int) (d now : String) :
    (Django.update file pk none now = Except.error Err.validation) ∧
    (Django.update file pk (some "") now = Except.error Err.validation) ∧
    (d ≠ "" → (∀ t ∈ FastAPI.load_tasks file, t.id ≠ pk) →
      Django.update file pk (some d) now = Except.error Err.notFound) ∧
    (d ≠ "" → ∀ n : Nat, firstIdx pk (FastAPI.load_tasks file) = some n →
      Django.update file pk (some d) now
        = Except.ok
            ({ (FastAPI.load_tasks file).getD n default with
                description := pyStrip d, updatedAt := now },
             FastAPI.save_tasks ((FastAPI.load_tasks file).set n
               { (FastAPI.load_tasks file).getD n default with
                 description := pyStrip d, updatedAt := now }))) ∧
    (¬ (1 ≤ d.length ∧ d.length ≤ 500) →
      FastAPI.update_task file pk d now = Except.error Err.validation) ∧
    (1 ≤ d.length → d.length ≤ 500 → (∀ t ∈ FastAPI.load_tasks file, t.id ≠ pk) →
      FastAPI.update_task file pk d now = Except.error Err.notFound) ∧
    (1 ≤ d.length → d.length ≤ 500 →
      ∀ n : Nat, firstIdx pk (FastAPI.load_tasks file) = some n →
      FastAPI.update_task file pk d now
        = Except.ok
            ({ (FastAPI.load_tasks file).getD n default with
                description := d, updatedAt := now },
             FastAPI.save_tasks ((FastAPI.load_tasks file).set n
               { (FastAPI.load_tasks file).getD n default with
                 description := d, updatedAt := now }))) := by
  refine ⟨rfl, rfl, ?_, ?_, ?_, ?_, ?_⟩
  · intro hd habs
    have hnone : firstIdx pk (FastAPI.load_tasks file) = none :=
      (firstIdx_eq_none pk _).mpr habs
    simp only [Django.update, Django._load_tasks]
    rw [if_neg hd, django_find_task_spec, hnone, option_map_none]
  · intro hd n hn
    exact django_update_ok file pk d now hd n hn
  · intro h
    have hv : ¬ FastAPI.TaskUpdate_valid d = true := by
      simp only [FastAPI.TaskUpdate_valid, Bool.and_eq_true, decide_eq_true_eq]
      intro hc
      exact h hc
    simp only [FastAPI.update_task]
    rw [if_neg hv]
  · intro h1 h2 habs
    have hv : FastAPI.TaskUpdate_valid d = true := by
      simp only [FastAPI.TaskUpdate_valid, Bool.and_eq_true, decide_eq_true_eq]
      exact ⟨h1, h2⟩
    have hnone : firstIdx pk (FastAPI.load_tasks file) = none :=
      (firstIdx_eq_none pk _).mpr habs
    have hidx : FastAPI.find_task_index (FastAPI.load_tasks file) pk = -1 := by
      rw [find_task_index_spec, hnone]
    simp only [FastAPI.update_task, hv, if_true, hidx]
  · intro h1 h2 n hn
    exact update_task_ok file pk d now
      (by simp only [FastAPI.TaskUpdate_valid, Bool.and_eq_true, decide_eq_true_eq]
          exact ⟨h1, h2⟩) n hn

set_option maxRecDepth 400000 in
/-- Witness for the amended C5 on a concrete one-task store. -/
theorem C5_update_description_witness :
    (Django.update (some c2file1) 1 (some "new") "t5").isOk = true := by
  have h := (C5_update_description (some c2file1) 1 "new" "t5").2.2.2.1
    (by decide) 0 (by rfl)
  rw [h]
  rfl

set_option maxRecDepth 400000 in
/-- C6 as stated is false on the Django implementation: the empty-string
filter is provided and is not one of the three valid values, yet the
request succeeds with the full list instead of a ValidationError. -/
theorem C6_counterexample :
    Django.list (some c2file1) (some "") = Except.ok [c2task1] ∧
    "" ∉ validStatuses :=
  ⟨rfl, by decide⟩

/-- C6 amended: an absent filter (and, in Django, an empty-string filter)
yields the full task sequence; a valid filter yields exactly the tasks
with that status in their original order (an order-preserving subsequence)
in both implementations; a provided filter outside the three values fails
with ValidationError when it is nonempty (Django) and in all cases in
FastAPI's by-status endpoint. -/
theorem C6_list_by_status (file : Option String) (s : String) :
    Django.list file none = Except.ok (FastAPI.load_tasks file) ∧
    Django.list file (some "") = Except.ok (FastAPI.load_tasks file) ∧
    FastAPI.list_tasks file = FastAPI.load_tasks file ∧
    (s ≠ "" → s ∉ validStatuses →
      Django.list file (some s) = Except.error Err.validation) ∧
    (s ∉ validStatuses →
      FastAPI.list_tasks_by_status file s = Except.error Err.validation) ∧
    (s ∈ validStatuses →
      ∃ r, Django.list file (some s) = Except.ok r ∧
        FastAPI.list_tasks_by_status file s = Except.ok r ∧
        r.Sublist (FastAPI.load_tasks file) ∧
        (∀ t ∈ r, t.status = s) ∧
        (∀ t ∈ FastAPI.load_tasks file, t.status = s → t ∈ r)) := by
  refine ⟨rfl, rfl, rfl, ?_, ?_, ?_⟩
  · intro hne hs
    have hc : ¬ validStatuses.contains s = true := fun hc => hs (List.elem_iff.mp hc)
    simp only [Django.list, Django._load_tasks]
    rw [if_neg hne, if_neg hc]
  · intro hs
    have hc : ¬ validStatuses.contains s = true := fun hc => hs (List.elem_iff.mp hc)
    simp only [FastAPI.list_tasks_by_status, FastAPI.TaskStatus_valid]
    rw [if_neg hc]
  · intro hs
    have hne : ¬ s = "" := by
      simp only [validStatuses, List.mem_cons, List.not_mem_nil, or_false] at hs
      rcases hs with h | h | h <;> (subst h; decide)
    have hc : validStatuses.contains s = true := List.elem_iff.mpr hs
    refine ⟨(FastAPI.load_tasks file).filter (fun t => t.status == s), ?_, ?_, ?_, ?_, ?_⟩
    · simp only [Django.list, Django._load_tasks]
      rw [if_neg hne, if_pos hc]
    · simp only [FastAPI.list_tasks_by_status, FastAPI.TaskStatus_valid]
      rw [if_pos hc]
    · exact List.filter_sublist _
    · intro t ht
      have := (List.mem_filter.mp ht).2
      simpa using this
    · intro t ht hstat
      exact List.mem_filter.mpr ⟨ht, by simpa using hstat⟩

set_option maxRecDepth 400000 in
/-- Witness for the amended C6 with the filter done on a one-task store. -/
theorem C6_list_by_status_witness :
    (Django.list (some c2file1) (some "done")).isOk = true := by
  obtain ⟨r, h1, _⟩ := (C6_list_by_status (some c2file1) "done").2.2.2.2.2 (by decide)
  rw [h1]
  rfl

/-- C7: get fails with NotFoundError for every id absent from the store;
and in a store with unique ids, after a successful delete of a present
id, a subsequent get of that id fails with NotFoundError in both
implementations — deletion is permanent. -/
theorem C7_get_after_delete (file : Option String) (task_id : Int) :
    ((∀ t ∈ FastAPI.load_tasks file, t.id ≠ task_id) →
      FastAPI.get_task file task_id = Except.error Err.notFound ∧
      Django.retrieve file task_id = Except.error Err.notFound) ∧
    (((FastAPI.load_tasks file).map Task.id).Nodup →
      ∀ t ∈ FastAPI.load_tasks file, t.id = task_id →
      ∃ f1,
        FastAPI.delete_task file task_id = Except.ok f1 ∧
        Django.destroy file task_id = Except.ok f1 ∧
        FastAPI.get_task (some f1) task_id = Except.error Err.notFound ∧
        Django.retrieve (some f1) task_id = Except.error Err.notFound) := by
  constructor
  · exact get_absent file task_id
  · intro hnd t ht hid
    have hne := firstIdx_isSome task_id _ t ht hid
    obtain ⟨n, hn⟩ : ∃ n, firstIdx task_id (FastAPI.load_tasks file) = some n := by
      cases h : firstIdx task_id (FastAPI.load_tasks file) with
      | none => exact absurd h hne
      | some n => exact ⟨n, rfl⟩
    obtain ⟨h1, h2⟩ := delete_ok file task_id n hn
    obtain ⟨hlt, hidn, _⟩ := firstIdx_spec task_id _ n hn
    have habs : ∀ u ∈ FastAPI.load_tasks
        (some (FastAPI.save_tasks ((FastAPI.load_tasks file).eraseIdx n))),
        u.id ≠ task_id := by
      rw [load_save]
      exact eraseIdx_no_id _ task_id n hnd hlt hidn
    exact ⟨_, h1, h2, (get_absent _ task_id habs).1, (get_absent _ task_id habs).2⟩

set_option maxRecDepth 400000 in
/-- Witness for C7: a missing id on the empty store, and a delete of task
2 from the concrete two-task store. -/
theorem C7_get_after_delete_witness :
    (FastAPI.get_task none 5 = Except.error Err.notFound ∧
      Django.retrieve none 5 = Except.error Err.notFound) ∧
    (FastAPI.delete_task (some c2file2) 2).isOk = true := by
  constructor
  · exact (C7_get_after_delete none 5).1 (by intro t ht; simp [FastAPI.load_tasks] at ht)
  · obtain ⟨f1, h1, _⟩ := (C7_get_after_delete (some c2file2) 2).2 (by decide)
      c2task2 (by decide) rfl
    rw [h1]
    rfl

end TaskTracker
